import Mathlib

/-!
Shallow embedding of the microtraffic simulation core of
`src/game/transport/microtraffic/mod.rs` (citybound).

Modelling conventions:
* `f32` values are modelled as exact rationals (`ℚ`); all order/arithmetic
  claims settled here are about the control flow and ordering structure of the
  code, not IEEE rounding.
* The IEEE `INFINITY` sentinels (`Obstacle::far_ahead`, and the
  `next_obstacle_acceleration = INFINITY` default) are modelled structurally:
  a missing obstacle is an `Option.none` / an omitted `min` operand, and the
  car-following acceleration towards the far-ahead sentinel is the free-flow
  acceleration (the squared gap-deficit term vanishes for an unbounded gap).
* Actor messages sent to the `World` (`trip.fail_at`, `trip.succeed`,
  `add_car` / `add_obstacles` on partner lanes, `on_signal_changed`) are
  modelled as an emitted `Event` list: per the actor model these messages are
  only consumed on a later tick, never during the current one.
* Lane/actor IDs (`_raw_id`, `instance_id`) are modelled as `Nat`.
-/

structure Obstacle where
  position : ℚ
  velocity : ℚ
  max_velocity : ℚ
  deriving DecidableEq, Repr

def Obstacle.offset_by (o : Obstacle) (delta : ℚ) : Obstacle :=
  { o with position := o.position + delta }

structure Location where
  landmark : Nat
  node : Nat
  deriving DecidableEq, Repr

/-- `Location::landmark_destination` (pathfinding module): the coarse
destination whose node is the landmark itself. -/
def Location.landmark_destination (l : Location) : Location :=
  { landmark := l.landmark, node := l.landmark }

/-- The part of `RoutingInfo` used here (`RoutingInfo { outgoing_idx, .. }`). -/
structure RoutingInfo where
  outgoing_idx : Nat
  deriving DecidableEq, Repr

structure LaneCar where
  trip : Nat
  as_obstacle : Obstacle
  acceleration : ℚ
  destination : Location
  next_hop_interaction : Nat
  deriving DecidableEq, Repr

def LaneCar.position (c : LaneCar) : ℚ := c.as_obstacle.position

def LaneCar.velocity (c : LaneCar) : ℚ := c.as_obstacle.velocity

def LaneCar.offset_by (c : LaneCar) (delta : ℚ) : LaneCar :=
  { c with as_obstacle := c.as_obstacle.offset_by delta }

structure TransferringLaneCar where
  as_lane_car : LaneCar
  transfer_position : ℚ
  transfer_velocity : ℚ
  transfer_acceleration : ℚ
  cancelling : Bool
  deriving DecidableEq, Repr

def TransferringLaneCar.position (c : TransferringLaneCar) : ℚ :=
  c.as_lane_car.as_obstacle.position

def TransferringLaneCar.velocity (c : TransferringLaneCar) : ℚ :=
  c.as_lane_car.as_obstacle.velocity

inductive OverlapKind where
  | Parallel
  | Transfer
  | Conflicting
  deriving DecidableEq, Repr

inductive InteractionKind where
  | Next (green : Bool)
  | Previous
  | Overlap (overlap_end : ℚ) (overlap_kind : OverlapKind)
  deriving DecidableEq, Repr

structure Interaction where
  partner_lane : Nat
  start : ℚ
  partner_start : ℚ
  kind : InteractionKind
  deriving DecidableEq, Repr

/-- Messages sent to the `World`, recorded in emission order. -/
inductive Event where
  | failAt (trip : Nat) (location : Nat)
  | succeed (trip : Nat)
  | addCarTo (lane : Nat) (car : LaneCar)
  | addObstaclesTo (lane : Nat) (obstacles : List Obstacle)
  | onSignalChanged (lane : Nat) (fromLane : Nat) (green : Bool)
  deriving DecidableEq, Repr

/-- Modelled from the spec: the actual gap of the car-following law (§4.1),
"clamped so it never produces a gap of zero or negative (numerical floor on
actual gap, e.g. never below a small positive epsilon)".  The source file
`src/game/transport/microtraffic/intelligent_acceleration.rs` is declared
(`mod intelligent_acceleration`) but is not under `src/`.  Constants chosen:
car length 4, floor epsilon 1/100. -/
def net_distance (car obstacle : Obstacle) : ℚ :=
  max (obstacle.position - car.position - 4) (1 / 100)

/-- Modelled from the spec: the Intelligent-Driver-Model-style car-following
law (§4.1), whose source file is not under `src/`: "acceleration increases
toward a free-flow target proportional to `(1 − (v/v_max)^4)`, and decreases
with a squared penalty term driven by the gap deficit
`(desired_gap / actual_gap)^2`, where desired gap grows with own speed and the
approach-speed differential (braking term)".  Constants chosen: maximum
acceleration 2, comfortable braking deceleration 2 (so the IDM braking-term
denominator `2·sqrt(a·b)` is the rational 4), minimum standstill gap 2; the
dynamic part of the desired gap is floored at 0 so that the desired gap indeed
"grows with" speed and the approach-speed differential. -/
def intelligent_acceleration (car obstacle : Obstacle) (safe_time_headway : ℚ) : ℚ :=
  let velocity_difference := car.velocity - obstacle.velocity
  let desired_gap := 2 +
    max 0 (car.velocity * safe_time_headway + car.velocity * velocity_difference / 4)
  2 * (1 - (car.velocity / car.max_velocity) ^ 4
    - (desired_gap / net_distance car obstacle) ^ 2)

/-- Modelled from the spec: the car-following law evaluated against the
`Obstacle::far_ahead` sentinel (position `+∞`): the squared gap-deficit term
vanishes for an unbounded gap and only the free-flow target remains (§8:
"Car-following acceleration toward the sentinel far ahead obstacle converges to
acceleration driving velocity toward `max_velocity`"). -/
def free_acceleration (car : Obstacle) : ℚ :=
  2 * (1 - (car.velocity / car.max_velocity) ^ 4)

/-- `self.pathfinding.routes.get(destination)`: the cached route table is
modelled as an association list looked up by exact key. -/
def routesGet (routes : List (Location × RoutingInfo)) (dest : Location) :
    Option RoutingInfo :=
  (routes.find? (fun p => decide (p.1 = dest))).map Prod.snd

/-- Rust's `as usize` cast from `f32`, for non-negative-or-saturating use:
truncation toward zero, negative values saturating to 0. -/
def ratAsUsize (x : ℚ) : Nat := x.floor.toNat

structure Lane where
  id : Nat
  construction_progress : ℚ
  routes : List (Location × RoutingInfo)
  last_spawn_position : ℚ
  cars : List LaneCar
  obstacles : List (Obstacle × Nat)
  interactions : List Interaction
  timings : List Bool
  green : Bool
  yellow_to_green : Bool
  yellow_to_red : Bool
  deriving DecidableEq, Repr

/-- The insertion of `Lane::add_car`: `iter().position(|other| other.position >
probe)` followed by `insert` there (or `push` when no such car exists).  Note
the probe is the position of the *argument* car, which for a forcibly spawned
car is the encoded negative position, not the relocated one. -/
def insertByPosition (probe : ℚ) (new_car : LaneCar) : List LaneCar → List LaneCar
  | [] => [new_car]
  | c :: rest =>
    if c.as_obstacle.position > probe then new_car :: c :: rest
    else c :: insertByPosition probe new_car rest

/-- `<Lane as LaneLike>::add_car`.  Returns the updated lane and the messages
sent to the world (`trip.fail_at` on the failure path). -/
def Lane.add_car (lane : Lane) (car : LaneCar) : Lane × List Event :=
  let car_forcibly_spawned := car.as_obstacle.position < 0
  let maybe_next_hop_interaction : Option Nat :=
    (((routesGet lane.routes car.destination).orElse (fun _ =>
        routesGet lane.routes car.destination.landmark_destination)).orElse (fun _ =>
        if car_forcibly_spawned ∨ lane.routes.isEmpty then none
        else (lane.routes.map Prod.snd)[(ratAsUsize (car.as_obstacle.velocity * 10000)) %
          lane.routes.length]?)).map
      (fun ri => ri.outgoing_idx)
  let spawn_possible : Option Bool :=
    if car_forcibly_spawned then
      (if lane.last_spawn_position > 2 then some true else none)
    else some true
  match maybe_next_hop_interaction, spawn_possible with
  | some next_hop_interaction, some _ =>
    let new_last_spawn :=
      if car_forcibly_spawned then lane.last_spawn_position - 6 else lane.last_spawn_position
    let routed_car : LaneCar :=
      { car with
        next_hop_interaction := next_hop_interaction % 256,
        as_obstacle :=
          if car_forcibly_spawned then
            (car.as_obstacle.offset_by (-car.as_obstacle.position)).offset_by
              (new_last_spawn + 6)
          else car.as_obstacle }
    ({ lane with
        cars := insertByPosition car.as_obstacle.position routed_car lane.cars,
        last_spawn_position := new_last_spawn }, [])
  | _, _ => (lane, [Event.failAt car.trip lane.id])

/-- Rust's stable `sort_by_key` (by a rational key), modelled as a stable
insertion sort: an element is inserted after every earlier element whose key is
less than or equal to its own. -/
def insertSortedBy {α : Type} (key : α → ℚ) (x : α) : List α → List α
  | [] => [x]
  | y :: ys => if key x < key y then x :: y :: ys else y :: insertSortedBy key x ys

/-- Stable sort by key (see `insertSortedBy`). -/
def sortBy {α : Type} (key : α → ℚ) (l : List α) : List α :=
  l.foldr (insertSortedBy key) []

/-- The obstacle-iterator advance inside `Lane::tick`'s acceleration pass:
`while following_obstacle.position < car.position + 0.1 { next() }` on the
sorted obstacle iterator. -/
def skipObstacles (carPos : ℚ) : Obstacle → List Obstacle → Option Obstacle × List Obstacle
  | o, rest =>
    if o.position < carPos + 1 / 10 then
      match rest with
      | [] => (none, [])
      | o2 :: rest2 => skipObstacles carPos o2 rest2
    else (some o, rest)

/-- The acceleration pass of `Lane::tick` (the `for c in 0..cars.len()` loop
inside `do_traffic`): each car's acceleration is the minimum of the
car-following acceleration toward the next car (headway 2; the far-ahead
sentinel for the front car), toward the next pending obstacle at or beyond the
car with the 0.1 margin (headway 4; `INFINITY`, i.e. no operand, when the
obstacle iterator is exhausted), capped by a stop-line obstacle 2 units past
the `Next` interaction's start when that interaction is red.  The obstacle
iterator state (`maybe_next_obstacle` plus the unconsumed rest) persists across
cars. -/
def accelCars (interactions : List Interaction) :
    Option Obstacle → List Obstacle → List LaneCar → List LaneCar
  | _, _, [] => []
  | cand, obsRest, car :: restCars =>
    let next_car_acceleration :=
      match restCars with
      | next :: _ => intelligent_acceleration car.as_obstacle next.as_obstacle 2
      | [] => free_acceleration car.as_obstacle
    let stepped :=
      match cand with
      | none => ((none : Option Obstacle), obsRest)
      | some o => skipObstacles car.as_obstacle.position o obsRest
    let acc1 :=
      match stepped.1 with
      | some o => min next_car_acceleration (intelligent_acceleration car.as_obstacle o 4)
      | none => next_car_acceleration
    let acc2 :=
      match interactions[car.next_hop_interaction]? with
      | some inter =>
        match inter.kind with
        | InteractionKind.Next green =>
          if green then acc1
          else min acc1 (intelligent_acceleration car.as_obstacle ⟨inter.start + 2, 0, 0⟩ 2)
        | _ => acc1
      | none => acc1
    { car with acceleration := acc2 } :: accelCars interactions stepped.1 stepped.2 restCars

/-- The per-car Euler integration of `Lane::tick`: position by the old
velocity, then velocity by the acceleration, clamped into
`[0, max_velocity]` (`.min(max_velocity).max(0.0)`). -/
def integrateCar (dt : ℚ) (car : LaneCar) : LaneCar :=
  { car with as_obstacle :=
      { car.as_obstacle with
          position := car.as_obstacle.position + dt * car.as_obstacle.velocity,
          velocity := max (min (car.as_obstacle.velocity + dt * car.acceleration)
            car.as_obstacle.max_velocity) 0 } }

/-- Obstacle integration: `position += dt * velocity` (non-accelerating). -/
def integrateObstacle (dt : ℚ) (o : Obstacle) : Obstacle :=
  { o with position := o.position + dt * o.velocity }

/-- The tail-to-head non-crossing clamp of `Lane::tick`:
`for i in (0..len-1).rev() { cars[i].position = cars[i].position.min(cars[i+1].position) }`.
When index `i` is processed, `cars[i+1]` has already been clamped, so the
functional form clamps the head against the head of the already-clamped
tail. -/
def clampPass : List LaneCar → List LaneCar
  | [] => []
  | c :: rest =>
    match clampPass rest with
    | [] => [c]
    | c2 :: rest2 =>
      { c with as_obstacle := { c.as_obstacle with
          position := min c.as_obstacle.position c2.as_obstacle.position } } :: c2 :: rest2

/-- The hand-off qualification test of `Lane::tick`'s switch loop: a car
qualifies when its position has passed its next-hop interaction's start (for
`Overlap{Transfer}` interactions additionally `position > end − 300`); the
payload is `(partner_lane, start, partner_start)`.  (The Rust code indexes
`interactions[car.next_hop_interaction]` directly and would panic on an
out-of-range index; an out-of-range index is modelled as not qualifying.) -/
def switchCondition (interactions : List Interaction) (car : LaneCar) :
    Option (Nat × ℚ × ℚ) :=
  match interactions[car.next_hop_interaction]? with
  | none => none
  | some inter =>
    match inter.kind with
    | InteractionKind.Overlap overlap_end OverlapKind.Transfer =>
      if car.as_obstacle.position > inter.start ∧
          car.as_obstacle.position > overlap_end - 300
      then some (inter.partner_lane, inter.start, inter.partner_start) else none
    | _ =>
      if car.as_obstacle.position > inter.start
      then some (inter.partner_lane, inter.start, inter.partner_start) else none

/-- `cars.iter().enumerate().rev().filter_map(..).next()`: the *last* (highest
index) car satisfying `switchCondition`, returned as the split
`(prefix, car, payload, suffix)` of the car list around that car. -/
def findLastSwitch (interactions : List Interaction) :
    List LaneCar → Option (List LaneCar × LaneCar × (Nat × ℚ × ℚ) × List LaneCar)
  | [] => none
  | car :: rest =>
    match findLastSwitch interactions rest with
    | some (b, c, info, a) => some (car :: b, c, info, a)
    | none =>
      match switchCondition interactions car with
      | some info => some ([], car, info, rest)
      | none => none

/-- The body of `Lane::tick`'s hand-off `loop`, driven by explicit fuel: each
iteration removes the found car and emits `trip.succeed` when this lane's id is
the destination node, else forwards the car (offset by
`partner_start − start`) to the partner lane.  One iteration removes exactly
one car, so fuel equal to the car count (`handoffLoop`) reproduces the
run-until-no-candidate loop. -/
def handoffAux (laneId : Nat) (interactions : List Interaction) :
    Nat → List LaneCar → List LaneCar × List Event
  | 0, cars => (cars, [])
  | fuel + 1, cars =>
    match findLastSwitch interactions cars with
    | none => (cars, [])
    | some (b, car, (partner, start, partner_start), a) =>
      let ev :=
        if laneId = car.destination.node then Event.succeed car.trip
        else Event.addCarTo partner (car.offset_by (partner_start - start))
      let rest := handoffAux laneId interactions fuel (b ++ a)
      (rest.1, ev :: rest.2)

/-- The hand-off `loop` of `Lane::tick` (see `handoffAux`). -/
def handoffLoop (laneId : Nat) (interactions : List Interaction)
    (cars : List LaneCar) : List LaneCar × List Event :=
  handoffAux laneId interactions cars.length cars

/-- `obstacles_for_interaction`: the outbound obstacle projection for one
interaction, from this lane's car list and received-obstacle list. -/
def obstacles_for_interaction (interaction : Interaction) (cars : List LaneCar)
    (self_obstacles : List (Obstacle × Nat)) : Option (List Obstacle) :=
  match interaction.kind with
  | InteractionKind.Overlap overlap_end overlap_kind =>
    some (match overlap_kind with
      | OverlapKind.Parallel =>
        (((cars.dropWhile (fun car =>
            decide (car.as_obstacle.position + 2 * car.as_obstacle.velocity <
              interaction.start))).takeWhile (fun car =>
            decide (car.as_obstacle.position < overlap_end))).map (fun car =>
          car.as_obstacle.offset_by (-interaction.start + interaction.partner_start)))
      | OverlapKind.Transfer =>
        ((cars.dropWhile (fun car =>
            decide (car.as_obstacle.position + 2 * car.as_obstacle.velocity <
              interaction.start))).map (fun car =>
          car.as_obstacle.offset_by (-interaction.start + interaction.partner_start)))
        ++ self_obstacles.filterMap (fun p =>
            if p.2 ≠ interaction.partner_lane ∧
                p.1.position + 2 * p.1.velocity > interaction.start
            then some (p.1.offset_by (-interaction.start + interaction.partner_start))
            else none)
      | OverlapKind.Conflicting =>
        if cars.any (fun car =>
            decide (car.as_obstacle.position + 2 * car.as_obstacle.velocity >
                interaction.start ∧
              car.as_obstacle.position - 2 < overlap_end))
        then [⟨interaction.partner_start, 0, 0⟩] else [])
  | InteractionKind.Previous =>
    some ((((cars.map (fun car => car.as_obstacle)) ++ self_obstacles.map Prod.fst).find?
        (fun o => decide (o.position ≥ interaction.start - 2))).map
        (fun o => o.offset_by (-interaction.start + interaction.partner_start)) |>.toList)
  | InteractionKind.Next _ => none

/-- `<Lane as Simulatable>::tick`.  `update_routes` (pathfinding, not under
`src/`) is modelled as leaving the cached route table unchanged; no claim here
depends on the refresh.  Returns the updated lane and the emitted messages in
order: signal-change propagation, hand-off messages, obstacle publication. -/
def Lane.tick (lane : Lane) (dt0 : ℚ) (current_tick : Nat) : Lane × List Event :=
  let dt := dt0 / 20
  let progress := lane.construction_progress + dt * 400
  let do_traffic := current_tick % 30 = lane.id % 30
  let old_green := lane.green
  let n := lane.timings.length
  let yellow_to_red := if n = 0 then true
    else !(lane.timings.getD (((current_tick + 100) / 10) % n) false)
  let yellow_to_green := if n = 0 then true
    else lane.timings.getD (((current_tick + 100) / 10) % n) false
  let green := if n = 0 then true
    else lane.timings.getD ((current_tick / 10) % n) false
  let signal_events :=
    if old_green ≠ green ∨ do_traffic then
      lane.interactions.filterMap (fun inter =>
        match inter.kind with
        | InteractionKind.Previous =>
          some (Event.onSignalChanged inter.partner_lane lane.id green)
        | _ => none)
    else []
  let obstacles1 :=
    if do_traffic then sortBy (fun p => p.1.position) lane.obstacles else lane.obstacles
  let cars1 :=
    if do_traffic then
      accelCars lane.interactions ((obstacles1.map Prod.fst).head?)
        ((obstacles1.map Prod.fst).tail) lane.cars
    else lane.cars
  let cars2 := cars1.map (integrateCar dt)
  let obstacles2 := obstacles1.map (fun p => (integrateObstacle dt p.1, p.2))
  let cars3 := clampPass cars2
  let handoff := handoffLoop lane.id lane.interactions cars3
  let publication_events :=
    lane.interactions.filterMap (fun inter =>
      if (current_tick + 1) % 30 = inter.partner_lane % 30 then
        (obstacles_for_interaction inter handoff.1 obstacles2).map
          (Event.addObstaclesTo inter.partner_lane)
      else none)
  ({ lane with
      construction_progress := progress,
      green := green,
      yellow_to_green := yellow_to_green,
      yellow_to_red := yellow_to_red,
      obstacles := obstacles2,
      cars := handoff.1 },
    signal_events ++ handoff.2 ++ publication_events)

/-- Modelled from the spec: `TransferLane::interaction_to_self_offset` lives in
the lane/geometry module (`super::lane`), which is not under `src/`; it
reprojects a neighbor-interaction-relative longitudinal coordinate into this
lane's coordinate space.  No claim settled here depends on its value; it is
modelled as the identity reprojection (offset 0). -/
def interaction_to_self_offset (_position : ℚ) (_from_left : Bool) : ℚ := 0

/-- Modelled from the spec: `TransferLane::self_to_interaction_offset`, the
inverse reprojection of `interaction_to_self_offset`; the lane/geometry module
is not under `src/`.  No claim settled here depends on its value; it is
modelled as the identity reprojection (offset 0). -/
def self_to_interaction_offset (_position : ℚ) (_from_left : Bool) : ℚ := 0

structure TransferLane where
  id : Nat
  construction_progress : ℚ
  construction_length : ℚ
  left : Option (Nat × ℚ)
  right : Option (Nat × ℚ)
  left_obstacles : List Obstacle
  right_obstacles : List Obstacle
  cars : List TransferringLaneCar
  deriving DecidableEq, Repr

/-- The danger reaction at the end of `TransferLane::tick`'s per-car traffic
pass: `if dangerous && !car.cancelling { car.transfer_acceleration =
-car.transfer_acceleration; car.cancelling = true }`. -/
def dangerUpdate (dangerous : Bool) (car : TransferringLaneCar) : TransferringLaneCar :=
  if dangerous = true ∧ car.cancelling = false then
    { car with transfer_acceleration := -car.transfer_acceleration, cancelling := true }
  else car

/-- The per-car body of `TransferLane::tick`'s traffic pass: longitudinal
acceleration is the minimum over the nearest car ahead, a qualifying left/right
obstacle (each gated by the car's lateral bias), the far-ahead sentinel
(modelled as `free_acceleration`), and the end-of-lane deceleration target; any
candidate within the 0.1 collision margin is excluded from the minimum and
marks the car's tick dangerous, and on danger a not-yet-cancelling car flips
its lateral acceleration sign and sets `cancelling`.  The pass only writes a
car's own acceleration/lateral fields and reads only positions of the other
cars, so it is modelled as a map over the pre-pass car list. -/
def transferAccelDanger (lane : TransferLane) (lobs robs : List Obstacle)
    (allCars : List TransferringLaneCar) (car : TransferringLaneCar) :
    TransferringLaneCar :=
  let next_car := (allCars.find? (fun other =>
      decide (other.position > car.position))).map
    (fun other => other.as_lane_car.as_obstacle)
  let maybe_next_left_obstacle :=
    if car.transfer_position < 3 / 10 ∨ car.transfer_acceleration < 0 then
      lobs.find? (fun o => decide (o.position + 5 > car.position))
    else none
  let maybe_next_right_obstacle :=
    if car.transfer_position > -(3 / 10) ∨ car.transfer_acceleration > 0 then
      robs.find? (fun o => decide (o.position + 5 > car.position))
    else none
  let candidates := next_car.toList ++ maybe_next_left_obstacle.toList ++
    maybe_next_right_obstacle.toList
  let dangerous := candidates.any (fun o => decide (o.position < car.position + 1 / 10))
  let next_obstacle_acceleration :=
    (candidates.filterMap (fun o =>
        if o.position < car.position + 1 / 10 then none
        else some (intelligent_acceleration car.as_lane_car.as_obstacle o 1))).foldr
      min (free_acceleration car.as_lane_car.as_obstacle)
  let transfer_before_end_velocity :=
    (lane.construction_length + 1 - car.position) / (3 / 2)
  let transfer_before_end_acceleration := transfer_before_end_velocity - car.velocity
  let acceleration := min next_obstacle_acceleration transfer_before_end_acceleration
  let car1 := { car with
    as_lane_car := { car.as_lane_car with acceleration := acceleration } }
  dangerUpdate dangerous car1

/-- Rust `f32::signum` for the values reachable here (the clamp below never
applies it to a negative-zero input): 1 for non-negative, −1 for negative. -/
def signumQ (x : ℚ) : ℚ := if x < 0 then -1 else 1

/-- The integration step of `TransferLane::tick`: longitudinal integration as
on a plain lane, plus lateral position/velocity integration with the lateral
velocity magnitude clamped to `velocity / 12` (using the just-updated
longitudinal velocity). -/
def integrateTransferCar (dt : ℚ) (car : TransferringLaneCar) : TransferringLaneCar :=
  let pos := car.position + dt * car.velocity
  let vel := max (min (car.velocity + dt * car.as_lane_car.acceleration)
    car.as_lane_car.as_obstacle.max_velocity) 0
  let tpos := car.transfer_position + dt * car.transfer_velocity
  let tvel0 := car.transfer_velocity + dt * car.transfer_acceleration
  let tvel := if |tvel0| > vel / 12 then vel / 12 * signumQ tvel0 else tvel0
  { car with
    as_lane_car := { car.as_lane_car with as_obstacle :=
      { car.as_lane_car.as_obstacle with position := pos, velocity := vel } },
    transfer_position := tpos,
    transfer_velocity := tvel }

/-- The tail-to-head adjacent-swap pass of `TransferLane::tick`:
`for i in (0..len-1).rev() { if cars[i].position > cars[i+1].position { swap } }`.
When index `i` is processed the suffix from `i+1` has already been processed,
so the functional form compares the head against the head of the processed
tail. -/
def swapPass : List TransferringLaneCar → List TransferringLaneCar
  | [] => []
  | c :: rest =>
    match swapPass rest with
    | [] => [c]
    | c2 :: rest2 =>
      if c.position > c2.position then c2 :: c :: rest2 else c :: c2 :: rest2

/-- The exit-resolution loop of `TransferLane::tick` (index-walk with removal):
a car exits right once `transfer_position > 1`, or once past the physical lane
end while `transfer_acceleration > 0`; mirrored for the left at `−1` /
non-positive lateral acceleration.  An exiting car's trip succeeds when the
target neighbor is its destination node, otherwise it is handed off via
`add_car`, offset by the neighbor's start plus the reprojection offset. -/
def exitPass (leftId rightId : Nat) (left_start right_start len : ℚ) :
    List TransferringLaneCar → List TransferringLaneCar × List Event
  | [] => ([], [])
  | car :: rest =>
    if car.transfer_position > 1 ∨ (car.position > len ∧ car.transfer_acceleration > 0) then
      let ev :=
        if car.as_lane_car.destination.node = rightId then
          Event.succeed car.as_lane_car.trip
        else
          Event.addCarTo rightId (car.as_lane_car.offset_by
            (right_start + self_to_interaction_offset car.position false))
      let r := exitPass leftId rightId left_start right_start len rest
      (r.1, ev :: r.2)
    else if car.transfer_position < -1 ∨
        (car.position > len ∧ car.transfer_acceleration ≤ 0) then
      let ev :=
        if car.as_lane_car.destination.node = leftId then
          Event.succeed car.as_lane_car.trip
        else
          Event.addCarTo leftId (car.as_lane_car.offset_by
            (left_start + self_to_interaction_offset car.position true))
      let r := exitPass leftId rightId left_start right_start len rest
      (r.1, ev :: r.2)
    else
      let r := exitPass leftId rightId left_start right_start len rest
      (car :: r.1, r.2)

/-- `<TransferLane as Simulatable>::tick`.  When either neighbor is unknown the
exit loop and the obstacle publications are skipped (the `if let (Some, Some)`
guard). -/
def TransferLane.tick (lane : TransferLane) (dt0 : ℚ) (current_tick : Nat) :
    TransferLane × List Event :=
  let dt := dt0 / 20
  let progress := lane.construction_progress + dt * 400
  let do_traffic := current_tick % 30 = lane.id % 30
  let lobs1 := if do_traffic then sortBy (fun o => o.position) lane.left_obstacles
    else lane.left_obstacles
  let robs1 := if do_traffic then sortBy (fun o => o.position) lane.right_obstacles
    else lane.right_obstacles
  let cars1 :=
    if do_traffic then lane.cars.map (transferAccelDanger lane lobs1 robs1 lane.cars)
    else lane.cars
  let cars2 := cars1.map (integrateTransferCar dt)
  let lobs2 := lobs1.map (integrateObstacle dt)
  let robs2 := robs1.map (integrateObstacle dt)
  let cars3 := swapPass cars2
  match lane.left, lane.right with
  | some (leftId, left_start), some (rightId, right_start) =>
    let ex := exitPass leftId rightId left_start right_start
      lane.construction_length cars3
    let left_pub :=
      if (current_tick + 1) % 30 = leftId % 30 then
        [Event.addObstaclesTo leftId (ex.1.filterMap (fun car =>
          if car.transfer_position < 3 / 10 ∨ car.transfer_acceleration < 0 then
            some (car.as_lane_car.as_obstacle.offset_by
              (left_start + self_to_interaction_offset car.position true))
          else none))]
      else []
    let right_pub :=
      if (current_tick + 1) % 30 = rightId % 30 then
        [Event.addObstaclesTo rightId (ex.1.filterMap (fun car =>
          if car.transfer_position > -(3 / 10) ∨ car.transfer_acceleration > 0 then
            some (car.as_lane_car.as_obstacle.offset_by
              (right_start + self_to_interaction_offset car.position false))
          else none))]
      else []
    ({ lane with
        construction_progress := progress,
        left_obstacles := lobs2,
        right_obstacles := robs2,
        cars := ex.1 },
      ex.2 ++ left_pub ++ right_pub)
  | _, _ =>
    ({ lane with
        construction_progress := progress,
        left_obstacles := lobs2,
        right_obstacles := robs2,
        cars := cars3 }, [])

/-- Iterated `TransferLane::tick` over a list of `(dt, current_tick)`
parameters, for properties across tick sequences. -/
def TransferLane.tickSeq (lane : TransferLane) (ps : List (ℚ × Nat)) : TransferLane :=
  ps.foldl (fun l p => (TransferLane.tick l p.1 p.2).1) lane

/-- The per-lane sortedness invariant: the car list is sorted by position,
ascending. -/
def carsSorted (cars : List LaneCar) : Prop :=
  List.Pairwise (fun a b => a.as_obstacle.position ≤ b.as_obstacle.position) cars

/-- Sortedness by position for transfer-lane cars. -/
def tcarsSorted (cars : List TransferringLaneCar) : Prop :=
  List.Pairwise (fun a b => a.position ≤ b.position) cars

instance : DecidablePred carsSorted := fun cars =>
  inferInstanceAs (Decidable (List.Pairwise _ cars))

instance : DecidablePred tcarsSorted := fun cars =>
  inferInstanceAs (Decidable (List.Pairwise _ cars))

/-- Concrete-value helper: a lane car from its trip id, obstacle data,
destination and next-hop index (acceleration 0). -/
def mkCar (trip : Nat) (pos vel vmax : ℚ) (dest : Location) (hop : Nat) : LaneCar :=
  { trip := trip, as_obstacle := ⟨pos, vel, vmax⟩, acceleration := 0,
    destination := dest, next_hop_interaction := hop }

/-- Concrete-value helper: a transferring lane car. -/
def mkTCar (c : LaneCar) (tp tv ta : ℚ) (canc : Bool) : TransferringLaneCar :=
  { as_lane_car := c, transfer_position := tp, transfer_velocity := tv,
    transfer_acceleration := ta, cancelling := canc }

/-- Concrete-value helper: a plain lane with empty signal timings (permanently
green) from its id, route table, spawn cursor, cars, obstacles and
interactions. -/
def mkLane (id : Nat) (routes : List (Location × RoutingInfo)) (lsp : ℚ)
    (cars : List LaneCar) (obstacles : List (Obstacle × Nat))
    (interactions : List Interaction) : Lane :=
  { id := id, construction_progress := 0, routes := routes,
    last_spawn_position := lsp, cars := cars, obstacles := obstacles,
    interactions := interactions, timings := [], green := true,
    yellow_to_green := true, yellow_to_red := true }

/-- Concrete-value helper: a transfer lane. -/
def mkTLane (id : Nat) (len : ℚ) (left right : Option (Nat × ℚ))
    (lobs robs : List Obstacle) (cars : List TransferringLaneCar) : TransferLane :=
  { id := id, construction_progress := 0, construction_length := len,
    left := left, right := right, left_obstacles := lobs,
    right_obstacles := robs, cars := cars }

/-- Iterated forced spawning: `spawnSeq lane f n` adds the forced-spawn
vehicles `f 0, …, f (n-1)` in sequence via `Lane::add_car`. -/
def spawnSeq (lane : Lane) (f : Nat → LaneCar) : Nat → Lane
  | 0 => lane
  | n + 1 => ((spawnSeq lane f n).add_car (f n)).1

/-- The cancellation-history relation between a transfer car's state at an
earlier and a later time on the same lane: once `cancelling` is set it stays
set and the lateral acceleration no longer changes, and the lateral
acceleration is either unchanged or negated exactly once, the negation
coinciding with the `false → true` transition of `cancelling`. -/
def CancelTrace (c c' : TransferringLaneCar) : Prop :=
  (c.cancelling = true →
    c'.cancelling = true ∧ c'.transfer_acceleration = c.transfer_acceleration) ∧
  (c'.transfer_acceleration = c.transfer_acceleration ∨
    (c'.transfer_acceleration = -c.transfer_acceleration ∧
      c'.cancelling = true ∧ c.cancelling = false))

/-- A transfer lane whose front car is fast enough to overtake two cars in one
integration step, exhibiting a non-adjacent inversion. -/
def cexTLane : TransferLane :=
  mkTLane 0 1000 none none [] []
    [mkTCar (mkCar 0 0 100 100 ⟨9, 9⟩ 0) 0 0 0 false,
     mkTCar (mkCar 1 1 0 100 ⟨9, 9⟩ 0) 0 0 0 false,
     mkTCar (mkCar 2 2 0 100 ⟨9, 9⟩ 0) 0 0 0 false]

/-- A lane holding one car at position 1, with a high spawn cursor. -/
def cexLaneForced : Lane :=
  mkLane 0 [(⟨4, 5⟩, ⟨0⟩)] 10 [mkCar 0 1 0 1 ⟨4, 5⟩ 0] [] []

/-- A forced-spawn car (encoded negative position) routed to `⟨4, 5⟩`. -/
def cexForcedCar : LaneCar := mkCar 1 (-1) 0 1 ⟨4, 5⟩ 0

/-- A lane with an empty route table and no cars. -/
def cexLaneNoRoutes : Lane := mkLane 3 [] 10 [] [] []

/-- A non-forced car whose destination (and landmark destination) has no
route. -/
def cexCarNoRoute : LaneCar := mkCar 7 5 1 10 ⟨1, 2⟩ 0

/-- A lane with a single cached route, not matching `cexCarNoRoute`'s
destination or landmark: the pseudo-random fallback applies. -/
def witLaneFallback : Lane := mkLane 3 [(⟨4, 4⟩, ⟨5⟩)] 10 [] [] []

/-- A lane with two cars both past their next-hop interaction's start. -/
def cexLaneHandoff : Lane :=
  mkLane 0 [] 10 [mkCar 0 20 0 1 ⟨9, 9⟩ 0, mkCar 1 30 0 1 ⟨9, 9⟩ 0] []
    [⟨7, 10, 100, InteractionKind.Next true⟩]

/-- A transfer lane with one car approaching a left obstacle within the
danger margin. -/
def witTLane9 : TransferLane :=
  mkTLane 0 1000 none none [⟨5, 0, 0⟩] []
    [mkTCar (mkCar 0 (499/100) 1 10 ⟨9, 9⟩ 0) 0 0 (3/10) false]

lemma insertByPosition_length (probe : ℚ) (n : LaneCar) (l : List LaneCar) :
    (insertByPosition probe n l).length = l.length + 1 := by
  induction l with
  | nil => rfl
  | cons c rest ih =>
    unfold insertByPosition
    split
    · rfl
    · simp [ih]

lemma insertByPosition_mem (probe : ℚ) (n : LaneCar) (l : List LaneCar) :
    n ∈ insertByPosition probe n l := by
  induction l with
  | nil => exact List.mem_singleton.mpr rfl
  | cons c rest ih =>
    unfold insertByPosition
    split
    · exact List.mem_cons_self n (c :: rest)
    · exact List.mem_cons_of_mem c ih

lemma insertByPosition_mem_iff (probe : ℚ) (n x : LaneCar) (l : List LaneCar) :
    x ∈ insertByPosition probe n l ↔ x = n ∨ x ∈ l := by
  induction l with
  | nil => simp [insertByPosition]
  | cons c rest ih =>
    unfold insertByPosition
    split
    · simp [List.mem_cons]
    · simp only [List.mem_cons, ih]
      tauto

lemma insertByPosition_sorted (n : LaneCar) (l : List LaneCar)
    (hl : carsSorted l) :
    carsSorted (insertByPosition n.as_obstacle.position n l) := by
  induction l with
  | nil => simp [insertByPosition, carsSorted]
  | cons c rest ih =>
    unfold carsSorted at hl ⊢
    rw [List.pairwise_cons] at hl
    unfold insertByPosition
    split
    · rename_i hgt
      rw [List.pairwise_cons]
      constructor
      · intro x hx
        rcases List.mem_cons.mp hx with rfl | hx
        · exact le_of_lt hgt
        · exact le_trans (le_of_lt hgt) (hl.1 x hx)
      · exact List.pairwise_cons.mpr hl
    · rename_i hle
      push_neg at hle
      rw [List.pairwise_cons]
      refine ⟨?_, ih hl.2⟩
      intro x hx
      rcases (insertByPosition_mem_iff _ _ _ _).mp hx with rfl | hx
      · exact hle
      · exact hl.1 x hx

lemma clampPass_length (l : List LaneCar) : (clampPass l).length = l.length := by
  induction l with
  | nil => rfl
  | cons c rest ih =>
    unfold clampPass
    rcases hq : clampPass rest with _ | ⟨c2, rest2⟩
    · rw [hq] at ih
      simp at ih ⊢
      exact List.length_eq_zero.mp ih.symm
    · rw [hq] at ih
      simp at ih ⊢
      omega

lemma clampPass_sorted (l : List LaneCar) : carsSorted (clampPass l) := by
  induction l with
  | nil => simp [clampPass, carsSorted]
  | cons c rest ih =>
    unfold clampPass
    rcases hq : clampPass rest with _ | ⟨c2, rest2⟩
    · simp [carsSorted]
    · rw [hq] at ih
      unfold carsSorted at ih ⊢
      rw [List.pairwise_cons] at ih ⊢
      constructor
      · intro x hx
        rcases List.mem_cons.mp hx with rfl | hx
        · exact min_le_right _ _
        · exact le_trans (min_le_right _ _) (ih.1 x hx)
      · exact List.pairwise_cons.mpr ih

lemma carsSorted_sublist {l1 l2 : List LaneCar} (h : l1.Sublist l2)
    (hs : carsSorted l2) : carsSorted l1 :=
  List.Pairwise.sublist h hs

lemma findLastSwitch_none (ints : List Interaction) (cars : List LaneCar)
    (h : findLastSwitch ints cars = none) :
    ∀ x ∈ cars, switchCondition ints x = none := by
  induction cars with
  | nil => intro x hx; simp at hx
  | cons car rest ih =>
    unfold findLastSwitch at h
    rcases hr : findLastSwitch ints rest with _ | r
    · rw [hr] at h
      rcases hs : switchCondition ints car with _ | info
      · intro x hx
        rcases List.mem_cons.mp hx with rfl | hx
        · exact hs
        · exact ih hr x hx
      · rw [hs] at h; simp at h
    · rw [hr] at h; simp at h

lemma findLastSwitch_none_of (ints : List Interaction) (cars : List LaneCar)
    (h : ∀ x ∈ cars, switchCondition ints x = none) :
    findLastSwitch ints cars = none := by
  induction cars with
  | nil => rfl
  | cons car rest ih =>
    unfold findLastSwitch
    rw [ih (fun x hx => h x (List.mem_cons_of_mem _ hx)),
      h car (List.mem_cons_self _ _)]

lemma findLastSwitch_eq_split (ints : List Interaction) (cars b a : List LaneCar)
    (c : LaneCar) (info : Nat × ℚ × ℚ)
    (h : findLastSwitch ints cars = some (b, c, info, a)) :
    cars = b ++ c :: a ∧ switchCondition ints c = some info ∧
      ∀ x ∈ a, switchCondition ints x = none := by
  induction cars generalizing b with
  | nil => simp [findLastSwitch] at h
  | cons car rest ih =>
    unfold findLastSwitch at h
    rcases hr : findLastSwitch ints rest with _ | ⟨b', c', info', a'⟩
    · rw [hr] at h
      rcases hs : switchCondition ints car with _ | info''
      · rw [hs] at h; simp at h
      · rw [hs] at h
        simp only [Option.some.injEq, Prod.mk.injEq] at h
        obtain ⟨hb, hc, hinfo, ha⟩ := h
        subst hb; subst hc; subst hinfo; subst ha
        exact ⟨rfl, hs, findLastSwitch_none ints rest hr⟩
    · rw [hr] at h
      simp only [Option.some.injEq, Prod.mk.injEq] at h
      obtain ⟨hb, hc, hinfo, ha⟩ := h
      subst hc; subst hinfo; subst ha
      obtain ⟨hsplit, hcond, hafter⟩ := ih b' hr
      subst hb
      exact ⟨by rw [hsplit]; rfl, hcond, hafter⟩

lemma findLastSwitch_of_split (ints : List Interaction) (b a : List LaneCar)
    (c : LaneCar) (info : Nat × ℚ × ℚ)
    (hc : switchCondition ints c = some info)
    (ha : ∀ x ∈ a, switchCondition ints x = none) :
    findLastSwitch ints (b ++ c :: a) = some (b, c, info, a) := by
  induction b with
  | nil =>
    rw [List.nil_append]
    unfold findLastSwitch
    rw [findLastSwitch_none_of ints a ha, hc]
  | cons car b' ih =>
    show findLastSwitch ints (car :: (b' ++ c :: a)) = _
    unfold findLastSwitch
    rw [ih]

lemma handoffAux_sublist (laneId : Nat) (ints : List Interaction) (fuel : Nat)
    (cars : List LaneCar) :
    (handoffAux laneId ints fuel cars).1.Sublist cars := by
  induction fuel generalizing cars with
  | zero => exact List.Sublist.refl _
  | succ n ih =>
    unfold handoffAux
    rcases h : findLastSwitch ints cars with _ | ⟨b, c, ⟨p, s, ps⟩, a⟩
    · exact List.Sublist.refl _
    · obtain ⟨hsplit, -, -⟩ := findLastSwitch_eq_split ints cars b a c (p, s, ps) h
      subst hsplit
      exact List.Sublist.trans (ih (b ++ a))
        ((List.sublist_cons_self c a).append_left b)

lemma handoffAux_no_switch (laneId : Nat) (ints : List Interaction) (fuel : Nat)
    (cars : List LaneCar) (hfuel : cars.length ≤ fuel) :
    ∀ c ∈ (handoffAux laneId ints fuel cars).1, switchCondition ints c = none := by
  induction fuel generalizing cars with
  | zero =>
    intro c hc
    rw [List.length_eq_zero.mp (Nat.le_zero.mp hfuel)] at hc
    simp [handoffAux] at hc
  | succ n ih =>
    unfold handoffAux
    rcases h : findLastSwitch ints cars with _ | ⟨b, c, ⟨p, s, ps⟩, a⟩
    · exact findLastSwitch_none ints cars h
    · obtain ⟨hsplit, -, -⟩ := findLastSwitch_eq_split ints cars b a c (p, s, ps) h
      apply ih
      subst hsplit
      simp [List.length_append] at hfuel ⊢
      omega

lemma handoffLoop_no_switch (laneId : Nat) (ints : List Interaction)
    (cars : List LaneCar) :
    ∀ c ∈ (handoffLoop laneId ints cars).1, switchCondition ints c = none :=
  handoffAux_no_switch laneId ints cars.length cars (le_refl _)

lemma handoffLoop_clampPass_sorted (laneId : Nat) (ints : List Interaction)
    (l : List LaneCar) : carsSorted (handoffLoop laneId ints (clampPass l)).1 :=
  carsSorted_sublist (handoffAux_sublist laneId ints _ _) (clampPass_sorted l)

lemma insertAtPos_sorted (probe : ℚ) (n : LaneCar) (l : List LaneCar)
    (hp : n.as_obstacle.position = probe) (hl : carsSorted l) :
    carsSorted (insertByPosition probe n l) := by
  subst hp
  exact insertByPosition_sorted n l hl

lemma add_car_sorted_of_nonneg (lane : Lane) (car : LaneCar)
    (hpos : 0 ≤ car.as_obstacle.position) (hs : carsSorted lane.cars) :
    carsSorted (lane.add_car car).1.cars := by
  have hnf : ¬(car.as_obstacle.position < 0) := not_lt.mpr hpos
  unfold Lane.add_car
  simp only [if_neg hnf]
  split
  · dsimp only
    exact insertAtPos_sorted _ _ _ rfl hs
  · exact hs
/-- **C1** (counterexample).  The claim fails at two concrete inputs: (i) a
sorted transfer lane whose front car overtakes two cars in one integration
step — the single adjacent-swap pass of `TransferLane::tick` leaves the list
unsorted; (ii) a forced-spawn `Lane::add_car` whose ordered insertion probes
with the encoded negative position instead of the relocated spawn position,
inserting the relocated car (position 10) before a car at position 1. -/
theorem C1_counterexample :
    tcarsSorted cexTLane.cars ∧ ¬ tcarsSorted ((cexTLane.tick 20 1).1.cars) ∧
    carsSorted cexLaneForced.cars ∧
    ¬ carsSorted ((cexLaneForced.add_car cexForcedCar).1.cars) := by
  have h1 : (cexTLane.tick 20 1).1.cars =
      [mkTCar (mkCar 1 1 0 100 ⟨9, 9⟩ 0) 0 0 0 false,
       mkTCar (mkCar 0 100 100 100 ⟨9, 9⟩ 0) 0 0 0 false,
       mkTCar (mkCar 2 2 0 100 ⟨9, 9⟩ 0) 0 0 0 false] := by
    norm_num [cexTLane, mkTLane, mkTCar, mkCar, TransferLane.tick, integrateTransferCar,
      swapPass, signumQ, TransferringLaneCar.position, TransferringLaneCar.velocity]
  have h2 : (cexLaneForced.add_car cexForcedCar).1.cars =
      [mkCar 1 10 0 1 ⟨4, 5⟩ 0, mkCar 0 1 0 1 ⟨4, 5⟩ 0] := by
    norm_num [cexLaneForced, cexForcedCar, mkLane, mkCar, Lane.add_car, routesGet,
      Option.orElse, insertByPosition, Obstacle.offset_by, List.find?]
  refine ⟨by decide, ?_, by decide, ?_⟩
  · rw [h1]; decide
  · rw [h2]; decide

/-- **C1** (amended).  For a plain lane the sortedness invariant holds:
`Lane::add_car` preserves ascending position order for every non-forced
vehicle (for a forced spawn the insertion probes with the pre-relocation
encoded position and can break order), and the vehicle list is sorted at the
end of every `Lane::tick` unconditionally (the tail-to-head clamp makes it
sorted and the hand-off loop only removes cars).  `TransferLane::tick`'s
single adjacent-swap pass repairs only adjacent inversions, so a transfer
lane's list need not be sorted at the end of its tick. -/
theorem C1_amended_sorted :
    (∀ (lane : Lane) (car : LaneCar), 0 ≤ car.as_obstacle.position →
      carsSorted lane.cars → carsSorted (lane.add_car car).1.cars) ∧
    (∀ (lane : Lane) (dt0 : ℚ) (t : Nat), carsSorted (lane.tick dt0 t).1.cars) :=
  ⟨fun lane car h hs => add_car_sorted_of_nonneg lane car h hs,
   fun lane _ _ => handoffLoop_clampPass_sorted lane.id lane.interactions _⟩

/-- **C1** (witness).  The amended theorem applied at a concrete lane and a
concrete non-forced car. -/
theorem C1_witness :
    carsSorted ((cexLaneForced.add_car cexCarNoRoute).1.cars) ∧
    carsSorted ((cexLaneForced.tick 20 1).1.cars) :=
  ⟨C1_amended_sorted.1 cexLaneForced cexCarNoRoute (by decide) (by decide),
   C1_amended_sorted.2 cexLaneForced 20 1⟩


/-- **C2** (counterexample).  At a lane whose route table is empty, a
non-forced car with no exact and no landmark route is *not* given a fallback
route and inserted — the fallback requires a non-empty table — instead the
trip is failed at this lane and the car dropped. -/
theorem C2_counterexample :
    routesGet cexLaneNoRoutes.routes cexCarNoRoute.destination = none ∧
    routesGet cexLaneNoRoutes.routes cexCarNoRoute.destination.landmark_destination = none ∧
    ¬ cexCarNoRoute.as_obstacle.position < 0 ∧
    cexLaneNoRoutes.routes = [] ∧
    (cexLaneNoRoutes.add_car cexCarNoRoute).1.cars = [] ∧
    (cexLaneNoRoutes.add_car cexCarNoRoute).2 = [Event.failAt 7 3] := by
  refine ⟨by decide, by decide, by decide, by decide, ?_, ?_⟩ <;>
    norm_num [cexLaneNoRoutes, cexCarNoRoute, mkLane, mkCar, Lane.add_car, routesGet,
      Option.orElse, List.find?]

/-- **C2** (amended).  When neither the exact nor the landmark destination has
a cached route and the car is not a forced spawn: if the route table is
non-empty, the deterministic pseudo-random fallback route (value index
`(velocity·10000) as usize mod table size`) is selected and the car is
inserted (no failure message); if the table is empty (no routes known at all),
no fallback exists — the trip is failed at this lane and the car dropped. -/
theorem C2_amended_fallback (lane : Lane) (car : LaneCar)
    (hd : routesGet lane.routes car.destination = none)
    (hl : routesGet lane.routes car.destination.landmark_destination = none)
    (hnf : 0 ≤ car.as_obstacle.position) :
    (lane.routes ≠ [] →
      (lane.add_car car).2 = [] ∧
      (lane.add_car car).1.cars.length = lane.cars.length + 1 ∧
      ∃ ri, (lane.routes.map Prod.snd)[(ratAsUsize (car.as_obstacle.velocity * 10000)) %
          lane.routes.length]? = some ri ∧
        ∃ c' ∈ (lane.add_car car).1.cars, c'.trip = car.trip ∧
          c'.next_hop_interaction = ri.outgoing_idx % 256) ∧
    (lane.routes = [] → lane.add_car car = (lane, [Event.failAt car.trip lane.id])) := by
  have hpos : ¬(car.as_obstacle.position < 0) := not_lt.mpr hnf
  constructor
  · intro hne
    have hlen : 0 < lane.routes.length := List.length_pos.mpr hne
    have hemp : lane.routes.isEmpty = false := by
      rw [List.isEmpty_eq_false]
      exact hne
    have hidx : (ratAsUsize (car.as_obstacle.velocity * 10000)) % lane.routes.length <
        (lane.routes.map Prod.snd).length := by
      rw [List.length_map]
      exact Nat.mod_lt _ hlen
    have hget : (lane.routes.map Prod.snd)[(ratAsUsize (car.as_obstacle.velocity * 10000)) %
        lane.routes.length]? = some ((lane.routes.map Prod.snd).get
          ⟨(ratAsUsize (car.as_obstacle.velocity * 10000)) % lane.routes.length, hidx⟩) := by
      rw [List.getElem?_eq_getElem hidx]
      rfl
    unfold Lane.add_car
    simp only [hd, hl, Option.orElse, if_neg hpos, hemp, if_neg, Option.map]
    rw [if_neg (by simp [hpos] : ¬(car.as_obstacle.position < 0 ∨ false = true)), hget]
    refine ⟨rfl, ?_, ?_⟩
    · simp [insertByPosition_length]
    · refine ⟨_, rfl, ?_⟩
      refine ⟨_, insertByPosition_mem _ _ _, rfl, rfl⟩
  · intro hempty
    unfold Lane.add_car
    simp only [hempty, List.isEmpty_nil, Option.orElse]
    rw [if_pos (Or.inr trivial)]
    rfl

/-- **C2** (witness).  The amended theorem applied at a lane with a single
cached route that matches neither the car's destination nor its landmark:
the fallback inserts the car without failing the trip. -/
theorem C2_witness :
    routesGet witLaneFallback.routes cexCarNoRoute.destination = none ∧
    routesGet witLaneFallback.routes cexCarNoRoute.destination.landmark_destination = none ∧
    (0:ℚ) ≤ cexCarNoRoute.as_obstacle.position ∧
    witLaneFallback.routes ≠ [] ∧
    ((witLaneFallback.add_car cexCarNoRoute).2 = [] ∧
      (witLaneFallback.add_car cexCarNoRoute).1.cars.length =
        witLaneFallback.cars.length + 1 ∧
      ∃ ri, (witLaneFallback.routes.map Prod.snd)[(ratAsUsize
          (cexCarNoRoute.as_obstacle.velocity * 10000)) %
          witLaneFallback.routes.length]? = some ri ∧
        ∃ c' ∈ (witLaneFallback.add_car cexCarNoRoute).1.cars,
          c'.trip = cexCarNoRoute.trip ∧
          c'.next_hop_interaction = ri.outgoing_idx % 256) :=
  ⟨by decide, by decide, by decide, by decide,
   (C2_amended_fallback witLaneFallback cexCarNoRoute (by decide) (by decide)
     (by decide)).1 (by decide)⟩

/-- **C3** (counterexample).  On a sorted lane with two cars both past their
next-hop interaction's start, the hand-off loop removes the *frontmost*
qualifying car first (`enumerate().rev().next()` yields the highest index),
not the rearmost: the first emitted hand-off message carries trip 1 (the car
at position 30), not trip 0 (the rearmost qualifying car at position 20). -/
theorem C3_counterexample :
    carsSorted cexLaneHandoff.cars ∧
    cexLaneHandoff.cars.map LaneCar.trip = [0, 1] ∧
    switchCondition cexLaneHandoff.interactions (mkCar 0 20 0 1 ⟨9, 9⟩ 0) =
      some (7, 10, 100) ∧
    switchCondition cexLaneHandoff.interactions (mkCar 1 30 0 1 ⟨9, 9⟩ 0) =
      some (7, 10, 100) ∧
    (cexLaneHandoff.tick 0 1).2 =
      [Event.addCarTo 7 (mkCar 1 120 0 1 ⟨9, 9⟩ 0),
       Event.addCarTo 7 (mkCar 0 110 0 1 ⟨9, 9⟩ 0)] := by
  refine ⟨by decide, by decide, by decide, by decide, ?_⟩
  norm_num [cexLaneHandoff, mkLane, mkCar, Lane.tick, handoffLoop, handoffAux,
    findLastSwitch, switchCondition, clampPass, integrateCar, integrateObstacle,
    accelCars, sortBy, insertSortedBy, obstacles_for_interaction, LaneCar.offset_by,
    Obstacle.offset_by]

/-- **C3** (amended).  At the end of every `Lane::tick` no remaining car
qualifies for hand-off; and each iteration of the hand-off loop removes the
*frontmost* (highest-index; with a sorted list, largest-position) qualifying
car — not the rearmost — emitting `trip.succeed` when this lane's id is the
car's destination node and otherwise forwarding the car to the interaction's
partner lane offset by `partner_start − start`. -/
theorem C3_amended_handoff :
    (∀ (lane : Lane) (dt0 : ℚ) (t : Nat),
      ∀ c ∈ (lane.tick dt0 t).1.cars, switchCondition lane.interactions c = none) ∧
    (∀ (laneId : Nat) (ints : List Interaction) (b a : List LaneCar) (car : LaneCar)
      (partner : Nat) (start partner_start : ℚ),
      switchCondition ints car = some (partner, start, partner_start) →
      (∀ x ∈ a, switchCondition ints x = none) →
      (handoffLoop laneId ints (b ++ car :: a)).1.Sublist (b ++ a) ∧
      (handoffLoop laneId ints (b ++ car :: a)).2.head? = some
        (if laneId = car.destination.node then Event.succeed car.trip
         else Event.addCarTo partner (car.offset_by (partner_start - start)))) := by
  constructor
  · exact fun lane _ _ => handoffLoop_no_switch lane.id lane.interactions _
  · intro laneId ints b a car partner start partner_start hc ha
    have hlen : (b ++ car :: a).length = (b.length + a.length) + 1 := by
      simp [List.length_append, List.length_cons]
      omega
    unfold handoffLoop
    rw [hlen]
    unfold handoffAux
    rw [findLastSwitch_of_split ints b a car (partner, start, partner_start) hc ha]
    exact ⟨handoffAux_sublist laneId ints _ _, rfl⟩

/-- **C3** (witness).  The amended loop characterization applied at a
single-car list whose car qualifies: the car is forwarded (its destination
node 9 is not lane 5) offset by `100 − 10`. -/
theorem C3_witness :
    (handoffLoop 5 [⟨7, 10, 100, InteractionKind.Next true⟩]
      [mkCar 2 15 0 1 ⟨9, 9⟩ 0]).1.Sublist [] ∧
    (handoffLoop 5 [⟨7, 10, 100, InteractionKind.Next true⟩]
      [mkCar 2 15 0 1 ⟨9, 9⟩ 0]).2.head? = some
        (if 5 = (mkCar 2 15 0 1 ⟨9, 9⟩ 0).destination.node then
          Event.succeed (mkCar 2 15 0 1 ⟨9, 9⟩ 0).trip
         else Event.addCarTo 7 ((mkCar 2 15 0 1 ⟨9, 9⟩ 0).offset_by (100 - 10))) :=
  C3_amended_handoff.2 5 [⟨7, 10, 100, InteractionKind.Next true⟩] [] []
    (mkCar 2 15 0 1 ⟨9, 9⟩ 0) 7 10 100 (by decide) (by simp)

/-- **C10**.  A forced-spawn car (encoded negative position) rejected because
the lane's spawn cursor is at or below 2 is reported through `trip.fail_at`
with this lane as the failure location — the same message as a routing
failure — and the lane (car list and spawn cursor included) is left entirely
unchanged, even though a valid route to the car's destination exists. -/
theorem C10_forced_reject (lane : Lane) (car : LaneCar) (ri : RoutingInfo)
    (hforced : car.as_obstacle.position < 0)
    (hcursor : lane.last_spawn_position ≤ 2)
    (hroute : routesGet lane.routes car.destination = some ri) :
    lane.add_car car = (lane, [Event.failAt car.trip lane.id]) := by
  have h2 : ¬(2 < lane.last_spawn_position) := not_lt.mpr hcursor
  unfold Lane.add_car
  simp only [hroute, Option.orElse, if_pos hforced, if_neg h2, Option.map]

/-- **C10** (witness).  The rejection theorem applied at a lane with cursor
exactly 2 and a cached route for the spawned car's destination. -/
theorem C10_witness :
    (mkCar 1 (-1) 0 1 ⟨4, 5⟩ 0).as_obstacle.position < 0 ∧
    (mkLane 4 [(⟨4, 5⟩, ⟨0⟩)] 2 [] [] []).last_spawn_position ≤ 2 ∧
    (mkLane 4 [(⟨4, 5⟩, ⟨0⟩)] 2 [] [] []).add_car (mkCar 1 (-1) 0 1 ⟨4, 5⟩ 0) =
      (mkLane 4 [(⟨4, 5⟩, ⟨0⟩)] 2 [] [] [], [Event.failAt 1 4]) :=
  ⟨by decide, by decide,
   C10_forced_reject (mkLane 4 [(⟨4, 5⟩, ⟨0⟩)] 2 [] [] [])
     (mkCar 1 (-1) 0 1 ⟨4, 5⟩ 0) ⟨0⟩ (by decide) (by decide) (by decide)⟩

lemma insertByPosition_head (probe : ℚ) (n : LaneCar) (l : List LaneCar)
    (h : ∀ c ∈ l, probe < c.as_obstacle.position) :
    insertByPosition probe n l = n :: l := by
  cases l with
  | nil => rfl
  | cons c rest =>
    unfold insertByPosition
    rw [if_pos (h c (List.mem_cons_self _ _))]

lemma add_car_forced_accept (lane : Lane) (car : LaneCar) (ri : RoutingInfo)
    (hforced : car.as_obstacle.position < 0)
    (hcursor : 2 < lane.last_spawn_position)
    (hroute : routesGet lane.routes car.destination = some ri) :
    lane.add_car car =
      ({ lane with
          cars := insertByPosition car.as_obstacle.position
              { car with
                  next_hop_interaction := ri.outgoing_idx % 256,
                  as_obstacle :=
                    (car.as_obstacle.offset_by
                        (-car.as_obstacle.position)).offset_by
                      ((lane.last_spawn_position - 6) + 6) }
              lane.cars,
          last_spawn_position := lane.last_spawn_position - 6 }, []) := by
  unfold Lane.add_car
  simp only [hroute, Option.orElse, if_pos hforced, if_pos hcursor, Option.map]

lemma offset_back_position (o : Obstacle) (x : ℚ) :
    ((o.offset_by (-o.position)).offset_by (x - 6 + 6)).position = x := by
  simp [Obstacle.offset_by]

lemma spawnSeq_invariant (L : Lane) (f : Nat → LaneCar) (N : Nat)
    (hcars : L.cars = [])
    (hforced : ∀ i, (f i).as_obstacle.position < 0)
    (hroute : ∀ i, (routesGet L.routes (f i).destination).isSome = true)
    (hcursor : ∀ k < N, 2 < L.last_spawn_position - 6 * (k : ℚ)) :
    (spawnSeq L f N).cars.map (fun c => c.as_obstacle.position) =
      ((List.range N).map (fun i : Nat => L.last_spawn_position - 6 * (i : ℚ))).reverse ∧
    (spawnSeq L f N).last_spawn_position = L.last_spawn_position - 6 * (N : ℚ) ∧
    (spawnSeq L f N).routes = L.routes := by
  induction N with
  | zero => simp [spawnSeq, hcars]
  | succ n ih =>
    obtain ⟨ihmap, ihlsp, ihroutes⟩ :=
      ih (fun k hk => hcursor k (Nat.lt_succ_of_lt hk))
    obtain ⟨ri, hri⟩ := Option.isSome_iff_exists.mp (hroute n)
    have hri' : routesGet (spawnSeq L f n).routes (f n).destination = some ri := by
      rw [ihroutes]; exact hri
    have hcur : 2 < (spawnSeq L f n).last_spawn_position := by
      rw [ihlsp]
      exact hcursor n (Nat.lt_succ_self n)
    have hstep := add_car_forced_accept (spawnSeq L f n) (f n) ri (hforced n) hcur hri'
    have hmem : ∀ c ∈ (spawnSeq L f n).cars,
        (f n).as_obstacle.position < c.as_obstacle.position := by
      intro c hc
      have hpc : c.as_obstacle.position ∈
          ((List.range n).map (fun i : Nat => L.last_spawn_position - 6 * (i : ℚ))).reverse := by
        rw [← ihmap]
        exact List.mem_map_of_mem _ hc
      rw [List.mem_reverse, List.mem_map] at hpc
      obtain ⟨i, hi, hpi⟩ := hpc
      rw [List.mem_range] at hi
      have : 2 < c.as_obstacle.position := by
        rw [← hpi]
        exact hcursor i (Nat.lt_succ_of_lt hi)
      calc (f n).as_obstacle.position < 0 := hforced n
        _ < 2 := by norm_num
        _ < _ := this
    refine ⟨?_, ?_, ?_⟩
    · show ((spawnSeq L f n).add_car (f n)).1.cars.map _ = _
      rw [hstep]
      dsimp only
      rw [insertByPosition_head _ _ _ hmem]
      rw [List.map_cons, ihmap, offset_back_position, ihlsp]
      rw [List.range_succ, List.map_append, List.reverse_append]
      simp
    · show ((spawnSeq L f n).add_car (f n)).1.last_spawn_position = _
      rw [hstep]
      show (spawnSeq L f n).last_spawn_position - 6 = _
      rw [ihlsp]
      push_cast
      ring
    · show ((spawnSeq L f n).add_car (f n)).1.routes = _
      rw [hstep]
      exact ihroutes

lemma chain_spaced_6 (L0 : ℚ) (N : Nat) :
    List.Chain' (fun a b => b - a = 6)
      (((List.range N).map (fun i : Nat => L0 - 6 * (i : ℚ))).reverse) := by
  rw [List.chain'_reverse, List.chain'_map, List.chain'_iff_get]
  intro i h
  simp only [List.get_range, flip]
  push_cast
  ring

/-- **C5**.  Forced spawning via `Lane::add_car`: (i) with the spawn cursor at
or below 2 the forced-spawn car is rejected — the lane is unchanged and the
trip failed at this lane; (ii) with the cursor above 2 and a cached route the
car is accepted without any failure message, relocated to the current cursor
value, and the cursor is decremented by the fixed spacing 6; (iii) spawning N
forced cars in sequence onto an empty lane (each with a route, the cursor
staying above 2 throughout) yields exactly N cars whose consecutive positions
differ by exactly 6. -/
theorem C5_forced_spawn :
    (∀ (lane : Lane) (car : LaneCar), car.as_obstacle.position < 0 →
      lane.last_spawn_position ≤ 2 →
      lane.add_car car = (lane, [Event.failAt car.trip lane.id])) ∧
    (∀ (lane : Lane) (car : LaneCar) (ri : RoutingInfo),
      car.as_obstacle.position < 0 → 2 < lane.last_spawn_position →
      routesGet lane.routes car.destination = some ri →
      (lane.add_car car).2 = [] ∧
      (lane.add_car car).1.last_spawn_position = lane.last_spawn_position - 6 ∧
      (lane.add_car car).1.cars.length = lane.cars.length + 1 ∧
      ∃ c' ∈ (lane.add_car car).1.cars, c'.trip = car.trip ∧
        c'.as_obstacle.position = lane.last_spawn_position) ∧
    (∀ (lane : Lane) (f : Nat → LaneCar) (N : Nat), lane.cars = [] →
      (∀ i, (f i).as_obstacle.position < 0) →
      (∀ i, (routesGet lane.routes (f i).destination).isSome = true) →
      (∀ k < N, 2 < lane.last_spawn_position - 6 * (k : ℚ)) →
      (spawnSeq lane f N).cars.length = N ∧
      List.Chain' (fun a b => b - a = 6)
        ((spawnSeq lane f N).cars.map (fun c => c.as_obstacle.position))) := by
  refine ⟨?_, ?_, ?_⟩
  · intro lane car hforced hcursor
    unfold Lane.add_car
    simp only [if_pos hforced, if_neg (not_lt.mpr hcursor)]
    split
    · rename_i h1 h2
      exact absurd h2 (by simp)
    · rfl
  · intro lane car ri hforced hcursor hroute
    have hstep := add_car_forced_accept lane car ri hforced hcursor hroute
    rw [hstep]
    refine ⟨rfl, rfl, ?_, ?_⟩
    · exact insertByPosition_length _ _ _
    · refine ⟨_, insertByPosition_mem _ _ _, rfl, ?_⟩
      show ((car.as_obstacle.offset_by _).offset_by _).position = _
      exact offset_back_position car.as_obstacle lane.last_spawn_position
  · intro lane f N hcars hforced hroute hcursor
    obtain ⟨hmap, -, -⟩ := spawnSeq_invariant lane f N hcars hforced hroute hcursor
    constructor
    · have := congrArg List.length hmap
      simpa using this
    · rw [hmap]
      exact chain_spaced_6 lane.last_spawn_position N

/-- **C5** (witness).  The theorem applied at a lane with cursor 30, a single
cached route, and three forced spawns: the resulting positions are spaced by
exactly 6; and at a lane with cursor 2 the forced spawn is rejected. -/
theorem C5_witness :
    ((mkLane 4 [(⟨4, 5⟩, ⟨0⟩)] 2 [] [] []).add_car (mkCar 1 (-1) 0 1 ⟨4, 5⟩ 0) =
      (mkLane 4 [(⟨4, 5⟩, ⟨0⟩)] 2 [] [] [], [Event.failAt 1 4])) ∧
    ((spawnSeq (mkLane 0 [(⟨4, 5⟩, ⟨2⟩)] 30 [] [] [])
        (fun i => mkCar i (-1) 0 1 ⟨4, 5⟩ 0) 3).cars.length = 3 ∧
      List.Chain' (fun a b => b - a = 6)
        ((spawnSeq (mkLane 0 [(⟨4, 5⟩, ⟨2⟩)] 30 [] [] [])
          (fun i => mkCar i (-1) 0 1 ⟨4, 5⟩ 0) 3).cars.map
          (fun c => c.as_obstacle.position))) :=
  ⟨C5_forced_spawn.1 (mkLane 4 [(⟨4, 5⟩, ⟨0⟩)] 2 [] [] [])
      (mkCar 1 (-1) 0 1 ⟨4, 5⟩ 0) (by decide) (by decide),
   C5_forced_spawn.2.2 (mkLane 0 [(⟨4, 5⟩, ⟨2⟩)] 30 [] [] [])
      (fun i => mkCar i (-1) 0 1 ⟨4, 5⟩ 0) 3 (by decide)
      (fun i => by norm_num [mkCar]) (fun i => rfl)
      (fun k hk => by interval_cases k <;> norm_num [mkLane])⟩

lemma find?_eq_some_of_first {α : Type} (p : α → Bool) (l : List α) (i : Nat)
    (a : α) (hget : l[i]? = some a) (hpa : p a = true)
    (hbefore : ∀ j < i, ∀ b, l[j]? = some b → p b = false) :
    l.find? p = some a := by
  induction l generalizing i with
  | nil => simp at hget
  | cons x xs ih =>
    cases i with
    | zero =>
      simp at hget
      subst hget
      rw [List.find?_cons, hpa]
    | succ n =>
      have hx : p x = false := hbefore 0 (Nat.succ_pos n) x (by simp)
      rw [List.find?_cons, hx]
      exact ih n (by simpa using hget) (fun j hj b hb =>
        hbefore (j + 1) (Nat.succ_lt_succ hj) b (by simpa using hb))

/-- **C6**.  For an `Overlap{Conflicting}` interaction,
`obstacles_for_interaction` emits exactly one synthetic stationary obstacle
(velocity 0, max velocity 0) at `partner_start` when some car occupies the
conflict window (`position + 2·velocity > start` and `position − 2 < end`),
and emits no obstacle at all when no car and no received obstacle intersects
the window (the resolver only inspects cars for this kind). -/
theorem C6_conflicting (inter : Interaction) (cars : List LaneCar)
    (selfObs : List (Obstacle × Nat)) (e : ℚ)
    (hk : inter.kind = InteractionKind.Overlap e OverlapKind.Conflicting) :
    ((∃ car ∈ cars, car.as_obstacle.position + 2 * car.as_obstacle.velocity >
        inter.start ∧ car.as_obstacle.position - 2 < e) →
      obstacles_for_interaction inter cars selfObs =
        some [⟨inter.partner_start, 0, 0⟩]) ∧
    ((∀ car ∈ cars, ¬(car.as_obstacle.position + 2 * car.as_obstacle.velocity >
        inter.start ∧ car.as_obstacle.position - 2 < e)) →
     (∀ p ∈ selfObs, ¬(p.1.position + 2 * p.1.velocity > inter.start ∧
        p.1.position - 2 < e)) →
      obstacles_for_interaction inter cars selfObs = some []) := by
  constructor
  · intro hocc
    obtain ⟨car, hmem, hcond⟩ := hocc
    have hany : cars.any (fun car =>
        decide (car.as_obstacle.position + 2 * car.as_obstacle.velocity >
            inter.start ∧ car.as_obstacle.position - 2 < e)) = true := by
      rw [List.any_eq_true]
      exact ⟨car, hmem, by rw [decide_eq_true_eq]; exact hcond⟩
    unfold obstacles_for_interaction
    rw [hk]
    simp only [hany, if_true]
  · intro hcars _
    have hany : cars.any (fun car =>
        decide (car.as_obstacle.position + 2 * car.as_obstacle.velocity >
            inter.start ∧ car.as_obstacle.position - 2 < e)) = false := by
      rw [List.any_eq_false]
      intro car hmem
      simp only [decide_eq_true_eq]
      exact hcars car hmem
    unfold obstacles_for_interaction
    rw [hk]
    simp only [hany]
    rfl

/-- **C6** (witness).  One car inside the conflict window of a `Conflicting`
overlap produces exactly the single stationary obstacle at `partner_start`
(77); with no cars at all the resolver emits an empty obstacle set. -/
theorem C6_witness :
    obstacles_for_interaction ⟨8, 10, 77, InteractionKind.Overlap 20
        OverlapKind.Conflicting⟩ [mkCar 0 12 0 5 ⟨9, 9⟩ 0] [] =
      some [⟨77, 0, 0⟩] ∧
    obstacles_for_interaction ⟨8, 10, 77, InteractionKind.Overlap 20
        OverlapKind.Conflicting⟩ [] [(⟨50, 0, 0⟩, 3)] = some [] :=
  ⟨(C6_conflicting _ [mkCar 0 12 0 5 ⟨9, 9⟩ 0] [] 20 rfl).1
      ⟨mkCar 0 12 0 5 ⟨9, 9⟩ 0, List.mem_singleton.mpr rfl, by norm_num [mkCar]⟩,
   (C6_conflicting _ [] [(⟨50, 0, 0⟩, 3)] 20 rfl).2 (by simp)
      (fun p hp => by
        simp only [List.mem_singleton] at hp
        subst hp
        norm_num)⟩

/-- **C7**.  For a `Previous` interaction, `obstacles_for_interaction` returns
the first element — in the chained order: this lane's car list first, then its
received obstacle list — whose position is at or past `start − 2`, offset into
partner coordinates by `partner_start − start`; when no element qualifies it
returns an empty obstacle set. -/
theorem C7_previous (inter : Interaction) (cars : List LaneCar)
    (selfObs : List (Obstacle × Nat))
    (hk : inter.kind = InteractionKind.Previous) :
    (∀ (i : Nat) (o : Obstacle),
      ((cars.map (fun c => c.as_obstacle)) ++ selfObs.map Prod.fst)[i]? = some o →
      inter.start - 2 ≤ o.position →
      (∀ j < i, ∀ o',
        ((cars.map (fun c => c.as_obstacle)) ++ selfObs.map Prod.fst)[j]? = some o' →
        o'.position < inter.start - 2) →
      obstacles_for_interaction inter cars selfObs =
        some [o.offset_by (-inter.start + inter.partner_start)]) ∧
    ((∀ o ∈ (cars.map (fun c => c.as_obstacle)) ++ selfObs.map Prod.fst,
        o.position < inter.start - 2) →
      obstacles_for_interaction inter cars selfObs = some []) := by
  constructor
  · intro i o hget hqual hbefore
    have hfind : ((cars.map (fun c => c.as_obstacle)) ++ selfObs.map Prod.fst).find?
        (fun o => decide (o.position ≥ inter.start - 2)) = some o := by
      refine find?_eq_some_of_first _ _ i o hget ?_ ?_
      · rw [decide_eq_true_eq]
        exact hqual
      · intro j hj b hb
        rw [decide_eq_false_iff_not]
        exact not_le.mpr (hbefore j hj b hb)
    unfold obstacles_for_interaction
    rw [hk]
    rw [hfind]
    rfl
  · intro hnone
    have hfind : ((cars.map (fun c => c.as_obstacle)) ++ selfObs.map Prod.fst).find?
        (fun o => decide (o.position ≥ inter.start - 2)) = none := by
      rw [List.find?_eq_none]
      intro o hmem
      simp only [decide_eq_true_eq, not_le]
      exact hnone o hmem
    unfold obstacles_for_interaction
    rw [hk]
    rw [hfind]
    rfl

/-- **C7** (witness).  On a lane with a car at 3 (below `start − 2 = 8`), a
car at 9, and a received obstacle at 50, the first qualifying element is the
car at 9, reprojected by `77 − 10` to 76; with only the low car no element
qualifies and the emitted set is empty. -/
theorem C7_witness :
    obstacles_for_interaction ⟨8, 10, 77, InteractionKind.Previous⟩
      [mkCar 0 3 0 5 ⟨9, 9⟩ 0, mkCar 1 9 0 5 ⟨9, 9⟩ 0] [(⟨50, 0, 0⟩, 3)] =
      some [Obstacle.offset_by ⟨9, 0, 5⟩ (-10 + 77)] ∧
    obstacles_for_interaction ⟨8, 10, 77, InteractionKind.Previous⟩
      [mkCar 0 3 0 5 ⟨9, 9⟩ 0] [] = some [] :=
  ⟨(C7_previous ⟨8, 10, 77, InteractionKind.Previous⟩
      [mkCar 0 3 0 5 ⟨9, 9⟩ 0, mkCar 1 9 0 5 ⟨9, 9⟩ 0] [(⟨50, 0, 0⟩, 3)] rfl).1
      1 ⟨9, 0, 5⟩ (by decide) (by norm_num)
      (fun j hj o' hb => by
        interval_cases j
        · simp [mkCar] at hb
          subst hb
          norm_num),
   (C7_previous ⟨8, 10, 77, InteractionKind.Previous⟩
      [mkCar 0 3 0 5 ⟨9, 9⟩ 0] [] rfl).2
      (fun o hmem => by
        simp [mkCar] at hmem
        subst hmem
        norm_num)⟩

/-- **C8**.  The car-following law's actual-gap floor (modelled from the spec,
§4.1/§7c): the floored gap `net_distance` is strictly positive for *all*
inputs — the squared gap-deficit term never divides by zero or by a negative
gap — and whenever the raw gap is below the epsilon floor (1/100) the law
returns a strongly negative braking acceleration (≤ −1000).  Over the exact
rationals the law is total, so no NaN/∞ can arise; the division-safety content
of that clause is the strict positivity of the denominator. -/
theorem C8_gap_floor (car obstacle : Obstacle) (T : ℚ) :
    0 < net_distance car obstacle ∧
    (obstacle.position - car.position - 4 < 1 / 100 →
      net_distance car obstacle = 1 / 100 ∧
      intelligent_acceleration car obstacle T ≤ -1000) := by
  constructor
  · exact lt_of_lt_of_le (by norm_num) (le_max_right _ _)
  · intro h
    have hnet : net_distance car obstacle = 1 / 100 := max_eq_right (le_of_lt h)
    refine ⟨hnet, ?_⟩
    have hm : (0:ℚ) ≤ max 0 (car.velocity * T +
        car.velocity * (car.velocity - obstacle.velocity) / 4) := le_max_left 0 _
    have hq : (0:ℚ) ≤ (car.velocity / car.max_velocity) ^ 4 := by positivity
    have h100 : ∀ x : ℚ, x / (1 / 100) = x * 100 := fun x => by
      rw [div_eq_mul_inv, one_div, inv_inv]
    simp only [intelligent_acceleration]
    rw [hnet, h100]
    nlinarith [sq_nonneg (max 0 (car.velocity * T +
        car.velocity * (car.velocity - obstacle.velocity) / 4)), hm, hq]

/-- **C8** (witness).  A car 4 units behind a stopped obstacle (raw gap 0,
below the floor): the floored gap is exactly 1/100 and the returned
acceleration is at most −1000. -/
theorem C8_witness :
    (⟨4, 0, 0⟩ : Obstacle).position - (⟨0, 5, 10⟩ : Obstacle).position - 4 < 1 / 100 ∧
    net_distance ⟨0, 5, 10⟩ ⟨4, 0, 0⟩ = 1 / 100 ∧
    intelligent_acceleration ⟨0, 5, 10⟩ ⟨4, 0, 0⟩ 2 ≤ -1000 :=
  ⟨by norm_num,
   ((C8_gap_floor ⟨0, 5, 10⟩ ⟨4, 0, 0⟩ 2).2 (by norm_num)).1,
   ((C8_gap_floor ⟨0, 5, 10⟩ ⟨4, 0, 0⟩ 2).2 (by norm_num)).2⟩

lemma forall2_comp {α : Type} {A B C : α → α → Prop} {p q r : List α}
    (h : ∀ x y z, A x y → B y z → C x z)
    (h1 : List.Forall₂ A p q) (h2 : List.Forall₂ B q r) : List.Forall₂ C p r := by
  induction h1 generalizing r with
  | nil => cases h2; exact List.Forall₂.nil
  | cons hab htail ih =>
    cases h2 with
    | cons hbc htail2 => exact List.Forall₂.cons (h _ _ _ hab hbc) (ih htail2)

lemma forall2_map_of_mem {α : Type} {R : α → α → Prop} (f : α → α) (l : List α)
    (h : ∀ x ∈ l, R x (f x)) : List.Forall₂ R l (l.map f) := by
  induction l with
  | nil => exact List.Forall₂.nil
  | cons x xs ih =>
    exact List.Forall₂.cons (h x (List.mem_cons_self _ _))
      (ih fun y hy => h y (List.mem_cons_of_mem _ hy))

lemma forall2_mem_right {α : Type} {R : α → α → Prop} {p q : List α}
    (h : List.Forall₂ R p q) : ∀ y ∈ q, ∃ x ∈ p, R x y := by
  induction h with
  | nil => simp
  | cons hab htail ih =>
    intro y hy
    rcases List.mem_cons.mp hy with rfl | hy
    · exact ⟨_, List.mem_cons_self _ _, hab⟩
    · obtain ⟨x, hx, hr⟩ := ih y hy
      exact ⟨x, List.mem_cons_of_mem _ hx, hr⟩

lemma sublist_forall2 {α : Type} {R : α → α → Prop} {p q r : List α}
    (hsub : r.Sublist q) (h : List.Forall₂ R p q) :
    ∃ p', p'.Sublist p ∧ List.Forall₂ R p' r := by
  induction hsub generalizing p with
  | slnil => exact ⟨[], List.nil_sublist p, List.Forall₂.nil⟩
  | cons a hsub ih =>
    cases h with
    | cons hab htail =>
      obtain ⟨p', hp', hf⟩ := ih htail
      exact ⟨p', hp'.trans (List.sublist_cons_self _ _), hf⟩
  | cons₂ a hsub ih =>
    cases h with
    | cons hab htail =>
      obtain ⟨p', hp', hf⟩ := ih htail
      exact ⟨_ :: p', List.Sublist.cons₂ _ hp', List.Forall₂.cons hab hf⟩

set_option maxHeartbeats 1000000 in
lemma accelCars_forall2 (ints : List Interaction) (cand : Option Obstacle)
    (obs : List Obstacle) (cars : List LaneCar) :
    List.Forall₂ (fun c c' => c'.as_obstacle = c.as_obstacle ∧ c'.trip = c.trip)
      cars (accelCars ints cand obs cars) := by
  induction cars generalizing cand obs with
  | nil => exact List.Forall₂.nil
  | cons car rest ih =>
    simp only [accelCars]
    exact List.Forall₂.cons ⟨rfl, rfl⟩ (ih _ _)

lemma clampPass_forall2 (p q : List LaneCar) (hp : carsSorted p)
    (h : List.Forall₂ (fun c c' => c.trip = c'.trip ∧
      c.as_obstacle.position ≤ c'.as_obstacle.position) p q) :
    List.Forall₂ (fun c c' => c.trip = c'.trip ∧
      c.as_obstacle.position ≤ c'.as_obstacle.position) p (clampPass q) := by
  induction h with
  | nil => exact List.Forall₂.nil
  | @cons a b p' q' hab htail ih =>
    unfold clampPass
    rcases hq : clampPass q' with _ | ⟨c2, rest2⟩
    · have hq' : q' = [] := by
        have hlen := clampPass_length q'
        rw [hq] at hlen
        exact List.length_eq_zero.mp hlen.symm
      subst hq'
      cases htail
      exact List.Forall₂.cons hab List.Forall₂.nil
    · have hp' : carsSorted p' := (List.pairwise_cons.mp hp).2
      have ihr := ih hp'
      rw [hq] at ihr
      cases p' with
      | nil => cases ihr
      | cons a1 p'' =>
        refine List.Forall₂.cons ⟨hab.1, ?_⟩ ihr
        show a.as_obstacle.position ≤
          min b.as_obstacle.position c2.as_obstacle.position
        apply le_min hab.2
        have ha : a.as_obstacle.position ≤ a1.as_obstacle.position :=
          (List.pairwise_cons.mp hp).1 a1 (List.mem_cons_self _ _)
        cases ihr with
        | cons h1 _ => exact le_trans ha h1.2

/-- **C4**.  For every car present on a plain lane both before and after one
`Lane::tick` (with non-negative tick duration, the list sorted ascending and
all velocities non-negative at the start), its position does not decrease:
the final car list pairs up (as a position-monotone `Forall₂`, trip ids
preserved) with a sublist of the original list — the cars removed by hand-off
are exactly the dropped indices. -/
theorem C4_position_monotone (lane : Lane) (dt0 : ℚ) (t : Nat)
    (hdt : 0 ≤ dt0) (hs : carsSorted lane.cars)
    (hv : ∀ c ∈ lane.cars, 0 ≤ c.as_obstacle.velocity) :
    ∃ pre, pre.Sublist lane.cars ∧
      List.Forall₂ (fun c c' => c.trip = c'.trip ∧
        c.as_obstacle.position ≤ c'.as_obstacle.position) pre
        (lane.tick dt0 t).1.cars := by
  have hdt' : 0 ≤ dt0 / 20 := by positivity
  have key : ∀ cars1 : List LaneCar,
      List.Forall₂ (fun c c' => c'.as_obstacle = c.as_obstacle ∧ c'.trip = c.trip)
        lane.cars cars1 →
      ∃ pre, pre.Sublist lane.cars ∧
        List.Forall₂ (fun c c' => c.trip = c'.trip ∧
          c.as_obstacle.position ≤ c'.as_obstacle.position) pre
          (handoffLoop lane.id lane.interactions
            (clampPass (cars1.map (integrateCar (dt0 / 20))))).1 := by
    intro cars1 h1
    have h2 : List.Forall₂ (fun c c' => c.trip = c'.trip ∧
        c.as_obstacle.position ≤ c'.as_obstacle.position) cars1
        (cars1.map (integrateCar (dt0 / 20))) := by
      apply forall2_map_of_mem
      intro x hx
      obtain ⟨c, hc, hco, -⟩ := forall2_mem_right h1 x hx
      refine ⟨rfl, ?_⟩
      show x.as_obstacle.position ≤
        x.as_obstacle.position + (dt0 / 20) * x.as_obstacle.velocity
      have hxv : 0 ≤ x.as_obstacle.velocity := by
        rw [hco]
        exact hv c hc
      nlinarith
    have h12 : List.Forall₂ (fun c c' => c.trip = c'.trip ∧
        c.as_obstacle.position ≤ c'.as_obstacle.position) lane.cars
        (cars1.map (integrateCar (dt0 / 20))) := by
      refine forall2_comp ?_ h1 h2
      rintro x y z ⟨hyo, hyt⟩ ⟨hzt, hzp⟩
      refine ⟨by rw [← hyt, ← hzt], ?_⟩
      calc x.as_obstacle.position = y.as_obstacle.position := by rw [hyo]
        _ ≤ z.as_obstacle.position := hzp
    have h3 := clampPass_forall2 _ _ hs h12
    exact sublist_forall2 (handoffAux_sublist lane.id lane.interactions _ _) h3
  simp only [Lane.tick]
  by_cases hdo : t % 30 = lane.id % 30
  · rw [if_pos hdo, if_pos hdo]
    exact key _ (accelCars_forall2 _ _ _ _)
  · rw [if_neg hdo]
    apply key
    rw [List.forall₂_same]
    exact fun x _ => ⟨rfl, rfl⟩

/-- **C4** (witness).  The monotonicity theorem applied at a sorted two-car
lane with zero velocities and dt 20. -/
theorem C4_witness :
    ∃ pre, pre.Sublist cexLaneHandoff.cars ∧
      List.Forall₂ (fun c c' => c.trip = c'.trip ∧
        c.as_obstacle.position ≤ c'.as_obstacle.position) pre
        ((cexLaneHandoff.tick 20 1).1.cars) :=
  C4_position_monotone cexLaneHandoff 20 1 (by norm_num) (by decide) (by decide)

lemma cancelTrace_of_eq (c c' : TransferringLaneCar)
    (ht : c'.transfer_acceleration = c.transfer_acceleration)
    (hc : c'.cancelling = c.cancelling) : CancelTrace c c' :=
  ⟨fun h => ⟨hc.trans h, ht⟩, Or.inl ht⟩

lemma cancelTrace_refl (c : TransferringLaneCar) : CancelTrace c c :=
  cancelTrace_of_eq c c rfl rfl

lemma cancelTrace_trans {a b c : TransferringLaneCar}
    (h1 : CancelTrace a b) (h2 : CancelTrace b c) : CancelTrace a c := by
  obtain ⟨m1, f1⟩ := h1
  obtain ⟨m2, f2⟩ := h2
  constructor
  · intro ha
    obtain ⟨hb, hbt⟩ := m1 ha
    obtain ⟨hc, hct⟩ := m2 hb
    exact ⟨hc, hct.trans hbt⟩
  · rcases f1 with he1 | ⟨hf1, hb1, ha1⟩
    · rcases f2 with he2 | ⟨hf2, hc2, hb2⟩
      · exact Or.inl (he2.trans he1)
      · refine Or.inr ⟨by rw [hf2, he1], hc2, ?_⟩
        cases hA : a.cancelling with
        | false => rfl
        | true => exact absurd (m1 hA).1 (by simp [hb2])
    · rcases f2 with he2 | ⟨hf2, hc2, hb2⟩
      · exact Or.inr ⟨he2.trans hf1, (m2 hb1).1, ha1⟩
      · exact absurd hb1 (by simp [hb2])

lemma dangerUpdate_trace (d : Bool) (c : TransferringLaneCar) :
    CancelTrace c (dangerUpdate d c) := by
  unfold dangerUpdate
  split
  · rename_i hcond
    refine ⟨fun hcanc => absurd hcanc (by simp [hcond.2]), Or.inr ⟨rfl, rfl, hcond.2⟩⟩
  · exact cancelTrace_of_eq _ _ rfl rfl

set_option maxHeartbeats 1000000 in
lemma transferAccelDanger_trace (lane : TransferLane) (lobs robs : List Obstacle)
    (allCars : List TransferringLaneCar) (c : TransferringLaneCar) :
    CancelTrace c (transferAccelDanger lane lobs robs allCars c) := by
  unfold transferAccelDanger
  refine cancelTrace_trans ?_ (dangerUpdate_trace _ _)
  exact cancelTrace_of_eq _ _ rfl rfl

lemma integrateTransferCar_trace (dt : ℚ) (c : TransferringLaneCar) :
    CancelTrace c (integrateTransferCar dt c) :=
  cancelTrace_of_eq _ _ rfl rfl

lemma swapPass_mem (l : List TransferringLaneCar) (x : TransferringLaneCar)
    (h : x ∈ swapPass l) : x ∈ l := by
  induction l with
  | nil => simpa [swapPass] using h
  | cons c rest ih =>
    unfold swapPass at h
    rcases hq : swapPass rest with _ | ⟨c2, rest2⟩
    · rw [hq] at h
      simp at h
      simp [h]
    · rw [hq] at h
      dsimp only at h
      by_cases hgt : c.position > c2.position
      · rw [if_pos hgt] at h
        rcases List.mem_cons.mp h with rfl | h2
        · have hx : x ∈ swapPass rest := by
            rw [hq]; exact List.mem_cons_self _ _
          exact List.mem_cons_of_mem _ (ih hx)
        · rcases List.mem_cons.mp h2 with rfl | h3
          · exact List.mem_cons_self _ _
          · have hx : x ∈ swapPass rest := by
              rw [hq]; exact List.mem_cons_of_mem _ h3
            exact List.mem_cons_of_mem _ (ih hx)
      · rw [if_neg hgt] at h
        rcases List.mem_cons.mp h with rfl | h2
        · exact List.mem_cons_self _ _
        · have hx : x ∈ swapPass rest := by rw [hq]; exact h2
          exact List.mem_cons_of_mem _ (ih hx)

lemma exitPass_mem (leftId rightId : Nat) (left_start right_start len : ℚ)
    (l : List TransferringLaneCar) (x : TransferringLaneCar)
    (h : x ∈ (exitPass leftId rightId left_start right_start len l).1) : x ∈ l := by
  induction l with
  | nil => simpa [exitPass] using h
  | cons c rest ih =>
    unfold exitPass at h
    split at h
    · exact List.mem_cons_of_mem _ (ih h)
    · split at h
      · exact List.mem_cons_of_mem _ (ih h)
      · rcases List.mem_cons.mp h with rfl | h2
        · exact List.mem_cons_self _ _
        · exact List.mem_cons_of_mem _ (ih h2)

lemma tick_cancelTrace (lane : TransferLane) (dt0 : ℚ) (t : Nat) :
    ∀ c' ∈ (lane.tick dt0 t).1.cars, ∃ c ∈ lane.cars, CancelTrace c c' := by
  intro c' hc'
  have step : ∀ cars1 : List TransferringLaneCar,
      (∀ x ∈ cars1, ∃ c ∈ lane.cars, CancelTrace c x) →
      ∀ y ∈ swapPass (cars1.map (integrateTransferCar (dt0 / 20))),
      ∃ c ∈ lane.cars, CancelTrace c y := by
    intro cars1 h1 y hy
    have hy2 := swapPass_mem _ _ hy
    obtain ⟨x, hx, hxy⟩ := List.mem_map.mp hy2
    obtain ⟨c, hc, hcx⟩ := h1 x hx
    exact ⟨c, hc, cancelTrace_trans hcx (hxy ▸ integrateTransferCar_trace _ x)⟩
  have hcars1 : ∀ x ∈ (if t % 30 = lane.id % 30 then
      lane.cars.map (transferAccelDanger lane
        (if t % 30 = lane.id % 30 then sortBy (fun o => o.position) lane.left_obstacles
          else lane.left_obstacles)
        (if t % 30 = lane.id % 30 then sortBy (fun o => o.position) lane.right_obstacles
          else lane.right_obstacles) lane.cars)
      else lane.cars), ∃ c ∈ lane.cars, CancelTrace c x := by
    intro x hx
    by_cases hdo : t % 30 = lane.id % 30
    · rw [if_pos hdo] at hx
      obtain ⟨c, hc, hcx⟩ := List.mem_map.mp hx
      exact ⟨c, hc, hcx ▸ transferAccelDanger_trace _ _ _ _ c⟩
    · rw [if_neg hdo] at hx
      exact ⟨x, hx, cancelTrace_refl x⟩
  simp only [TransferLane.tick] at hc'
  rcases hL : lane.left with _ | ⟨leftId, left_start⟩ <;>
    rcases hR : lane.right with _ | ⟨rightId, right_start⟩ <;>
    rw [hL, hR] at hc' <;>
    simp only [] at hc'
  · exact step _ hcars1 c' hc'
  · exact step _ hcars1 c' hc'
  · exact step _ hcars1 c' hc'
  · exact step _ hcars1 c' (exitPass_mem _ _ _ _ _ _ c' hc')

/-- **C9**.  Across any sequence of `TransferLane::tick` calls, every car
still on the lane descends from a car of the initial list through a
`CancelTrace`: the `cancelling` flag, once set, is never cleared and the
lateral (transfer) acceleration never changes again afterwards; the lateral
acceleration is either unchanged or negated exactly once, and the single
negation happens exactly at the `false → true` transition of `cancelling`
(the first tick on which the danger margin is hit while the car is not yet
cancelling). -/
theorem C9_cancelling (lane : TransferLane) (ps : List (ℚ × Nat)) :
    ∀ c' ∈ (lane.tickSeq ps).cars, ∃ c ∈ lane.cars, CancelTrace c c' := by
  induction ps generalizing lane with
  | nil => exact fun c' h => ⟨c', h, cancelTrace_refl c'⟩
  | cons p ps ih =>
    intro c' h
    have h' : c' ∈ (((lane.tick p.1 p.2).1).tickSeq ps).cars := h
    obtain ⟨cm, hcm, htm⟩ := ih (lane.tick p.1 p.2).1 c' h'
    obtain ⟨c0, hc0, ht0⟩ := tick_cancelTrace lane p.1 p.2 cm hcm
    exact ⟨c0, hc0, cancelTrace_trans ht0 htm⟩

/-- **C9** (witness).  The trace theorem applied after one tick of a transfer
lane whose single car is left unchanged apart from integration (off the
traffic phase): the surviving car traces back to the initial car. -/
theorem C9_witness :
    ∃ c ∈ witTLane9.cars,
      CancelTrace c (mkTCar (mkCar 0 (599/100) 1 10 ⟨9, 9⟩ 0) 0 (1/12) (3/10) false) :=
  C9_cancelling witTLane9 [(20, 1)]
    (mkTCar (mkCar 0 (599/100) 1 10 ⟨9, 9⟩ 0) 0 (1/12) (3/10) false)
    (by
      have h : (witTLane9.tickSeq [(20, 1)]).cars =
          [mkTCar (mkCar 0 (599/100) 1 10 ⟨9, 9⟩ 0) 0 (1/12) (3/10) false] := by
        norm_num [witTLane9, TransferLane.tickSeq, TransferLane.tick, mkTLane, mkTCar,
          mkCar, integrateTransferCar, swapPass, signumQ, sortBy, insertSortedBy,
          integrateObstacle, TransferringLaneCar.position, TransferringLaneCar.velocity]
        rw [abs_of_pos] <;> norm_num
      rw [h]
      exact List.mem_singleton.mpr rfl)
